import Mathlib

/-!
# Verification of the SelectionAndSCM simulation and scoring engine

Shallow embedding of the core services of the e-commerce procurement
simulator: the inventory ledger (`InventoryService`), the order processor
(`OrderService`), and the task lifecycle / scoring engine (`TaskService`).

Currency amounts (JS `number` used as decimal currency) are embedded as `ℚ`,
stock levels and counts as `ℤ`, and storage collections as Lean lists.  All
operations are scoped to a single `(userId, taskId)` pair, so the state keeps
one task, one optional progress record, one inventory list, one financial
ledger and one order list.  A thrown JS exception is an `Except.error`; since
the real services write through to storage as they go, every operation
returns the (possibly partially) mutated state *alongside* the error, which
is what lets us reason about mid-loop failures of multi-item orders.
-/

namespace SCM

/-- `recordType` field of a `FinancialRecord`. -/
inductive RecordType where
  | income
  | expense
  | investment
deriving DecidableEq, Repr

/-- A `FinancialRecord` row (append-only ledger entry). -/
structure FinancialRecord where
  recordType : RecordType
  amount : ℚ
  description : String
  category : String
  relatedOrderId : Option Nat := none
deriving DecidableEq, Repr

/-- An `InventoryRecord` row, keyed by productId within one (user, task). -/
structure InventoryRecord where
  productId : Nat
  currentStock : ℤ
  reservedStock : ℤ
deriving DecidableEq, Repr

/-- The `kpiScores` object stored on a progress record. -/
structure KpiScores where
  financial : ℤ
  operational : ℤ
  decision : ℤ
  learning : ℤ
  total : ℤ
deriving DecidableEq, Repr

/-- `status` field of a `StudentProgress`. -/
inductive ProgressStatus where
  | active
  | completed
deriving DecidableEq, Repr

/-- A `StudentProgress` row for the fixed (userId, taskId). -/
structure StudentProgress where
  currentBalance : ℚ
  currentDay : ℤ
  inventoryValue : ℚ
  totalRevenue : ℚ
  totalProfit : ℚ
  kpiScores : KpiScores
  status : ProgressStatus
deriving DecidableEq, Repr

/-- A `TrainingTask` (only the fields the engine reads). -/
structure TrainingTask where
  initialBudget : ℚ
  durationDays : ℤ
deriving DecidableEq, Repr

/-- `orderType` field of an `Order`. -/
inductive OrderType where
  | purchase
  | sale
deriving DecidableEq, Repr

/-- `status` field of an `Order`. -/
inductive OrderStatus where
  | pending
  | confirmed
  | completed
  | cancelled
deriving DecidableEq, Repr

/-- One element of `orderItems`. -/
structure OrderItem where
  productId : Nat
  quantity : ℤ
  unitPrice : ℚ
deriving DecidableEq, Repr

/-- An `Order` row. -/
structure Order where
  id : Nat
  orderNumber : String
  orderType : OrderType
  totalAmount : ℚ
  status : OrderStatus
  orderItems : List OrderItem
deriving DecidableEq, Repr

/-- The error kinds the services throw (`throw new Error(...)` sites). -/
inductive SvcError where
  | notFound
  | notStarted
  | alreadyComplete
  | insufficientFunds
  | insufficientStock (productId : Nat)
  | orderNotFound
  | alreadyCompleted
  | invalidOrderState
deriving DecidableEq, Repr

/-- Storage state for one (userId, taskId): the record-store collections the
services read and write.  `nextOrderId` stands in for the store's id
generation. -/
structure SimState where
  task : Option TrainingTask
  progress : Option StudentProgress
  inventory : List InventoryRecord
  financialRecords : List FinancialRecord
  orders : List Order
  nextOrderId : Nat
deriving DecidableEq, Repr

/-- `storage.upsertInventoryRecord`: replace the row keyed by the same
productId, or append a new row. -/
def upsertInventoryRecord (l : List InventoryRecord) (r : InventoryRecord) :
    List InventoryRecord :=
  if l.any (fun x => x.productId == r.productId) then
    l.map (fun x => if x.productId == r.productId then r else x)
  else
    l ++ [r]

/-- `inventoryRecords.find(r => r.productId === productId)`. -/
def findInventory (l : List InventoryRecord) (productId : Nat) :
    Option InventoryRecord :=
  l.find? (fun r => r.productId == productId)

/-- `InventoryService.processIncoming`: add stock (creating the record if
absent), append a procurement expense, and—when a progress record exists—
deduct the cost from the balance and add it to the inventory value. -/
def processIncoming (productId : Nat) (quantity : ℤ) (unitCost : ℚ)
    (s : SimState) : Except SvcError InventoryRecord × SimState :=
  let existingRecord := findInventory s.inventory productId
  let newStock := match existingRecord with
    | some r => r.currentStock + quantity
    | none => quantity
  let updatedRecord : InventoryRecord :=
    { productId := productId
      currentStock := newStock
      reservedStock := (existingRecord.map (·.reservedStock)).getD 0 }
  let totalCost : ℚ := (quantity : ℚ) * unitCost
  let rec1 : FinancialRecord :=
    { recordType := .expense
      amount := totalCost
      description := "采购入库 - 数量: " ++ toString quantity
      category := "procurement" }
  let s1 := { s with
    inventory := upsertInventoryRecord s.inventory updatedRecord
    financialRecords := s.financialRecords ++ [rec1] }
  let s2 := match s1.progress with
    | some p => { s1 with progress := some { p with
        currentBalance := p.currentBalance - totalCost
        inventoryValue := p.inventoryValue + totalCost } }
    | none => s1
  (.ok updatedRecord, s2)

/-- `InventoryService.processOutgoing`: fail with InsufficientStock when no
record exists or stock is short; otherwise remove stock, append a sales
income record, and—when a progress record exists—credit the revenue and
apply the placeholder-cost profit/inventory-value updates. -/
def processOutgoing (productId : Nat) (quantity : ℤ) (unitPrice : ℚ)
    (s : SimState) : Except SvcError InventoryRecord × SimState :=
  match findInventory s.inventory productId with
  | none => (.error (.insufficientStock productId), s)
  | some existingRecord =>
    if existingRecord.currentStock < quantity then
      (.error (.insufficientStock productId), s)
    else
      let updatedRecord := { existingRecord with
        currentStock := existingRecord.currentStock - quantity }
      let totalRevenue : ℚ := (quantity : ℚ) * unitPrice
      let rec1 : FinancialRecord :=
        { recordType := .income
          amount := totalRevenue
          description := "销售出库 - 数量: " ++ toString quantity
          category := "sales" }
      let s1 := { s with
        inventory := upsertInventoryRecord s.inventory updatedRecord
        financialRecords := s.financialRecords ++ [rec1] }
      let inventoryCost : ℚ := (quantity : ℚ) * 50
      let s2 := match s1.progress with
        | some p => { s1 with progress := some { p with
            currentBalance := p.currentBalance + totalRevenue
            totalRevenue := p.totalRevenue + totalRevenue
            totalProfit := p.totalProfit + (totalRevenue - inventoryCost)
            inventoryValue := max 0 (p.inventoryValue - inventoryCost) } }
        | none => s1
      (.ok updatedRecord, s2)

/-- JavaScript `Math.round` on the (exact-rational) values that occur here:
round half away from zero toward positive infinity, `⌊q + 1/2⌋`. -/
def jround (q : ℚ) : ℤ := ⌊q + 1 / 2⌋

/-- `TaskService.calculateInventoryTurnover`: units sold across completed
sale orders divided by the average current stock (0 when the average is not
positive). -/
def calculateInventoryTurnover (s : SimState) : ℚ :=
  let salesOrders := s.orders.filter
    (fun o => o.orderType == .sale && o.status == .completed)
  let totalSold : ℤ := (salesOrders.map
    (fun o => (o.orderItems.map (·.quantity)).sum)).sum
  let avgInventory : ℚ :=
    ((s.inventory.map (·.currentStock)).sum : ℚ) /
      (max 1 s.inventory.length : ℤ)
  if 0 < avgInventory then (totalSold : ℚ) / avgInventory else 0

/-- `TaskService.calculateKPIs`: the four axis scores (clamped as in the
source) and the weighted total, each stored through `Math.round`. -/
def calculateKPIs (s : SimState) (progress : StudentProgress) : KpiScores :=
  let totalIncome : ℚ := ((s.financialRecords.filter
    (fun r => r.recordType == .income)).map (·.amount)).sum
  let totalExpense : ℚ := ((s.financialRecords.filter
    (fun r => r.recordType == .expense)).map (·.amount)).sum
  let profitMargin : ℚ :=
    if 0 < totalIncome then ((totalIncome - totalExpense) / totalIncome) * 100
    else 0
  let financialScore : ℚ := min 100 (max 0 (profitMargin * 2))
  let completedOrders : ℤ :=
    (s.orders.filter (fun o => o.status == .completed)).length
  let totalOrders : ℤ := s.orders.length
  let fulfillmentRate : ℚ :=
    if 0 < totalOrders then ((completedOrders : ℚ) / totalOrders) * 100 else 0
  let operationalScore : ℚ := min 100 fulfillmentRate
  let inventoryTurnover := calculateInventoryTurnover s
  let decisionScore : ℚ := min 100 (inventoryTurnover * 10)
  let daysActive := progress.currentDay
  let progressRate : ℚ := match s.task with
    | some task => ((daysActive : ℚ) / task.durationDays) * 100
    | none => 0
  let learningScore : ℚ := min 100 progressRate
  { financial := jround financialScore
    operational := jround operationalScore
    decision := jround decisionScore
    learning := jround learningScore
    total := jround (financialScore * (4 / 10) + operationalScore * (3 / 10) +
      decisionScore * (2 / 10) + learningScore * (1 / 10)) }

/-- `TaskService.startTask`: NotFound when the task is absent; return the
existing progress unchanged when one exists; otherwise append the initial
income record and seed the progress. -/
def startTask (s : SimState) : Except SvcError StudentProgress × SimState :=
  match s.task with
  | none => (.error .notFound, s)
  | some task =>
    match s.progress with
    | some existing => (.ok existing, s)
    | none =>
      let initialProgress : StudentProgress :=
        { currentBalance := task.initialBudget
          currentDay := 1
          inventoryValue := 0
          totalRevenue := 0
          totalProfit := 0
          kpiScores :=
            { financial := 0, operational := 0, decision := 0
              learning := 0, total := 0 }
          status := .active }
      let rec1 : FinancialRecord :=
        { recordType := .income
          amount := task.initialBudget
          description := "初始启动资金"
          category := "initial" }
      (.ok initialProgress,
        { s with
          financialRecords := s.financialRecords ++ [rec1]
          progress := some initialProgress })

/-- `TaskService.advanceDay`: NotStarted without progress; AlreadyComplete
once currentDay has reached durationDays; otherwise charge the 1% daily
operational cost, record it as an expense, bump the day and store the
recomputed KPI scores. -/
def advanceDay (s : SimState) : Except SvcError StudentProgress × SimState :=
  match s.progress with
  | none => (.error .notStarted, s)
  | some progress =>
    match s.task with
    | none => (.error .notFound, s)
    | some task =>
      if task.durationDays ≤ progress.currentDay then
        (.error .alreadyComplete, s)
      else
        let dailyCost : ℚ := progress.currentBalance * (1 / 100)
        let newBalance := progress.currentBalance - dailyCost
        let rec1 : FinancialRecord :=
          { recordType := .expense
            amount := dailyCost
            description := "第" ++ toString progress.currentDay ++ "天运营成本"
            category := "operational" }
        let s1 := { s with financialRecords := s.financialRecords ++ [rec1] }
        let updatedProgress := { progress with
          currentDay := progress.currentDay + 1
          currentBalance := newBalance }
        let kpiScores := calculateKPIs s1 updatedProgress
        let finalProgress := { updatedProgress with kpiScores := kpiScores }
        (.ok finalProgress, { s1 with progress := some finalProgress })

/-- `orders.find(o => o.id === orderId)`. -/
def findOrder (l : List Order) (orderId : Nat) : Option Order :=
  l.find? (fun o => o.id == orderId)

/-- `storage.updateOrder(orderId, {status})`: set the status of the order
with the given id. -/
def updateOrderStatus (l : List Order) (orderId : Nat) (st : OrderStatus) :
    List Order :=
  l.map (fun o => if o.id == orderId then { o with status := st } else o)

/-- The per-item loop of `OrderService.processSalesOrder`: call
`processOutgoing` for each item in order, stopping at the first failure but
keeping the mutations already written for the earlier items. -/
def processItemsOutgoing :
    List OrderItem → SimState → Except SvcError Unit × SimState
  | [], s => (.ok (), s)
  | item :: rest, s =>
    match processOutgoing item.productId item.quantity item.unitPrice s with
    | (.error e, s1) => (.error e, s1)
    | (.ok _, s1) => processItemsOutgoing rest s1

/-- `OrderService.processSalesOrder`: look the order up, require pending
status, run the outgoing movement for every item, then mark the order
completed. -/
def processSalesOrder (orderId : Nat) (s : SimState) :
    Except SvcError Order × SimState :=
  match findOrder s.orders orderId with
  | none => (.error .orderNotFound, s)
  | some order =>
    if order.status ≠ .pending then (.error .invalidOrderState, s)
    else
      match processItemsOutgoing order.orderItems s with
      | (.error e, s1) => (.error e, s1)
      | (.ok _, s1) =>
        let completedOrder := { order with status := .completed }
        (.ok completedOrder,
          { s1 with orders := updateOrderStatus s1.orders orderId .completed })

/-- The availability pre-check of `OrderService.createSalesOrder`: an item is
short when no inventory record exists for its product or the current stock is
below the requested quantity. -/
def itemShort (s : SimState) (item : OrderItem) : Bool :=
  match findInventory s.inventory item.productId with
  | none => true
  | some inventory => inventory.currentStock < item.quantity

/-- `OrderService.createSalesOrder`: check every requested quantity against
the current inventory snapshot (failing with InsufficientStock at the first
short item before any mutation), create the pending order, then process it
synchronously. -/
def createSalesOrder (items : List OrderItem) (s : SimState) :
    Except SvcError Order × SimState :=
  match items.find? (itemShort s) with
  | some item => (.error (.insufficientStock item.productId), s)
  | none =>
    let totalAmount : ℚ :=
      (items.map (fun item => (item.quantity : ℚ) * item.unitPrice)).sum
    let order : Order :=
      { id := s.nextOrderId
        orderNumber := "SO-" ++ toString s.nextOrderId
        orderType := .sale
        totalAmount := totalAmount
        status := .pending
        orderItems := items }
    let s1 := { s with
      orders := s.orders ++ [order]
      nextOrderId := s.nextOrderId + 1 }
    match processSalesOrder order.id s1 with
    | (.error e, s2) => (.error e, s2)
    | (.ok _, s2) => (.ok order, s2)

/-- `OrderService.cancelOrder`: OrderNotFound when absent, AlreadyCompleted
when status is completed; otherwise set status to cancelled and append a
zero-amount expense record referencing the order. -/
def cancelOrder (orderId : Nat) (s : SimState) :
    Except SvcError Order × SimState :=
  match findOrder s.orders orderId with
  | none => (.error .orderNotFound, s)
  | some order =>
    if order.status = .completed then (.error .alreadyCompleted, s)
    else
      let updatedOrder := { order with status := .cancelled }
      let rec1 : FinancialRecord :=
        { recordType := .expense
          amount := 0
          description := "订单取消: " ++ order.orderNumber
          category := "operational"
          relatedOrderId := some orderId }
      (.ok updatedOrder,
        { s with
          orders := updateOrderStatus s.orders orderId .cancelled
          financialRecords := s.financialRecords ++ [rec1] })

/-- Outcome of `OrderService.negotiatePrice` (message omitted: the template
strings carry no further data). -/
structure NegotiationResult where
  accepted : Bool
  finalPrice : ℚ
deriving DecidableEq, Repr

/-- `OrderService.negotiatePrice` after the supplier/product lookups:
a pure decision on `basePrice` (the product's unit price), the requested
price and the quantity. -/
def negotiatePrice (basePrice requestedPrice : ℚ) (quantity : ℤ) :
    NegotiationResult :=
  let discount := (basePrice - requestedPrice) / basePrice
  let quantityFactor : ℚ := min ((quantity : ℚ) / 100) 1
  let maxDiscount : ℚ := 15 / 100 + quantityFactor * (10 / 100)
  if discount ≤ 0 then
    { accepted := true, finalPrice := requestedPrice }
  else if discount ≤ maxDiscount then
    { accepted := true, finalPrice := requestedPrice }
  else if discount ≤ maxDiscount + 5 / 100 then
    { accepted := false, finalPrice := basePrice * (1 - maxDiscount) }
  else
    { accepted := false, finalPrice := basePrice }

/-- One inventory/day operation for the fixed (userId, taskId), used to state
the sequence invariants. -/
inductive InvOp where
  | incoming (productId : Nat) (quantity : ℤ) (unitCost : ℚ)
  | outgoing (productId : Nat) (quantity : ℤ) (unitPrice : ℚ)
  | advance
deriving DecidableEq, Repr

/-- Run one operation, keeping whatever state the service left behind
(failed calls leave the state they received). -/
def applyOp (op : InvOp) (s : SimState) : SimState :=
  match op with
  | .incoming productId quantity unitCost =>
      (processIncoming productId quantity unitCost s).2
  | .outgoing productId quantity unitPrice =>
      (processOutgoing productId quantity unitPrice s).2
  | .advance => (advanceDay s).2

/-- Run a sequence of operations left to right. -/
def applyOps (ops : List InvOp) (s : SimState) : SimState :=
  ops.foldl (fun s op => applyOp op s) s

/-- Sum of the amounts of all expense records in a ledger. -/
def sumExpense (rs : List FinancialRecord) : ℚ :=
  ((rs.filter (fun r => r.recordType == .expense)).map (·.amount)).sum

/-- Sum of the amounts of all income records other than the initial seed
record (category "initial"). -/
def sumIncomeNonInitial (rs : List FinancialRecord) : ℚ :=
  ((rs.filter (fun r =>
    r.recordType == .income && r.category != "initial")).map (·.amount)).sum

/-- The (unrounded) financial axis score: twice the profit margin over all
financial records, clamped to [0, 100].  Names the `financialScore` binding
inside `calculateKPIs`. -/
def financialScoreRaw (s : SimState) : ℚ :=
  let totalIncome : ℚ := ((s.financialRecords.filter
    (fun r => r.recordType == .income)).map (·.amount)).sum
  let totalExpense : ℚ := ((s.financialRecords.filter
    (fun r => r.recordType == .expense)).map (·.amount)).sum
  let profitMargin : ℚ :=
    if 0 < totalIncome then ((totalIncome - totalExpense) / totalIncome) * 100
    else 0
  min 100 (max 0 (profitMargin * 2))

/-- The (unrounded) operational axis score: the order fulfillment rate capped
at 100.  Names the `operationalScore` binding inside `calculateKPIs`. -/
def operationalScoreRaw (s : SimState) : ℚ :=
  let completedOrders : ℤ :=
    (s.orders.filter (fun o => o.status == .completed)).length
  let totalOrders : ℤ := s.orders.length
  let fulfillmentRate : ℚ :=
    if 0 < totalOrders then ((completedOrders : ℚ) / totalOrders) * 100 else 0
  min 100 fulfillmentRate

/-- The (unrounded) decision axis score: ten times the inventory turnover,
capped at 100.  Names the `decisionScore` binding inside `calculateKPIs`. -/
def decisionScoreRaw (s : SimState) : ℚ :=
  min 100 (calculateInventoryTurnover s * 10)

/-- The (unrounded) learning axis score: the progress rate capped at 100.
Names the `learningScore` binding inside `calculateKPIs`. -/
def learningScoreRaw (s : SimState) (progress : StudentProgress) : ℚ :=
  let progressRate : ℚ := match s.task with
    | some task => ((progress.currentDay : ℚ) / task.durationDays) * 100
    | none => 0
  min 100 progressRate

/-- Fresh state for a task with the given budget and duration: nothing
started yet, all collections empty. -/
def initState (budget : ℚ) (duration : ℤ) : SimState :=
  { task := some { initialBudget := budget, durationDays := duration }
    progress := none
    inventory := []
    financialRecords := []
    orders := []
    nextOrderId := 0 }

/-! ## Ledger bookkeeping lemmas -/

theorem sumExpense_append (rs : List FinancialRecord) (r : FinancialRecord) :
    sumExpense (rs ++ [r]) =
      sumExpense rs + (if r.recordType = .expense then r.amount else 0) := by
  simp only [sumExpense, List.filter_append, List.map_append, List.sum_append]
  by_cases h : r.recordType = .expense <;> simp [h]

theorem sumIncomeNonInitial_append (rs : List FinancialRecord)
    (r : FinancialRecord) :
    sumIncomeNonInitial (rs ++ [r]) =
      sumIncomeNonInitial rs +
        (if r.recordType = .income ∧ r.category ≠ "initial" then r.amount
         else 0) := by
  simp only [sumIncomeNonInitial, List.filter_append, List.map_append,
    List.sum_append]
  by_cases h1 : r.recordType = .income <;>
    by_cases h2 : r.category = "initial" <;> simp [h1, h2]

/-- The ledger/balance coupling of the spec: a progress record exists and its
cached balance equals the seed budget minus all expenses plus all
non-initial income. -/
def BalanceConserved (budget : ℚ) (s : SimState) : Prop :=
  s.progress.map (·.currentBalance) =
    some (budget - sumExpense s.financialRecords +
      sumIncomeNonInitial s.financialRecords)

theorem balanceConserved_processIncoming (budget : ℚ) (productId : Nat)
    (quantity : ℤ) (unitCost : ℚ) (s : SimState)
    (h : BalanceConserved budget s) :
    BalanceConserved budget (processIncoming productId quantity unitCost s).2 := by
  unfold BalanceConserved at h ⊢
  cases hp : s.progress with
  | none => simp [hp] at h
  | some p =>
    simp only [hp, Option.map_some', Option.some.injEq] at h
    simp [processIncoming, hp, sumExpense_append, sumIncomeNonInitial_append]
    linarith [h]

theorem balanceConserved_processOutgoing (budget : ℚ) (productId : Nat)
    (quantity : ℤ) (unitPrice : ℚ) (s : SimState)
    (h : BalanceConserved budget s) :
    BalanceConserved budget (processOutgoing productId quantity unitPrice s).2 := by
  unfold BalanceConserved at h ⊢
  unfold processOutgoing
  cases hf : findInventory s.inventory productId with
  | none => simpa using h
  | some r =>
    by_cases hq : r.currentStock < quantity
    · simpa [hf, hq] using h
    · cases hp : s.progress with
      | none => simp [hp] at h
      | some p =>
        simp only [hp, Option.map_some', Option.some.injEq] at h
        simp [hf, hq, hp, sumExpense_append, sumIncomeNonInitial_append]
        linarith [h]

theorem balanceConserved_advanceDay (budget : ℚ) (s : SimState)
    (h : BalanceConserved budget s) :
    BalanceConserved budget (advanceDay s).2 := by
  unfold BalanceConserved at h ⊢
  cases hp : s.progress with
  | none => simp [hp] at h
  | some p =>
    simp only [hp, Option.map_some', Option.some.injEq] at h
    cases ht : s.task with
    | none => simpa [advanceDay, hp, ht] using h
    | some task =>
      by_cases hd : task.durationDays ≤ p.currentDay
      · simpa [advanceDay, hp, ht, hd] using h
      · simp [advanceDay, hp, ht, hd, sumExpense_append,
          sumIncomeNonInitial_append]
        linarith [h]

theorem balanceConserved_applyOps (budget : ℚ) (ops : List InvOp)
    (s : SimState) (h : BalanceConserved budget s) :
    BalanceConserved budget (applyOps ops s) := by
  induction ops generalizing s with
  | nil => exact h
  | cons op rest ih =>
    have hstep : BalanceConserved budget (applyOp op s) := by
      cases op with
      | incoming productId quantity unitCost =>
        exact balanceConserved_processIncoming budget productId quantity
          unitCost s h
      | outgoing productId quantity unitPrice =>
        exact balanceConserved_processOutgoing budget productId quantity
          unitPrice s h
      | advance => exact balanceConserved_advanceDay budget s h
    exact ih (applyOp op s) hstep

/-- C1.  Balance conservation: starting from `startTask` on a fresh task and
applying any sequence of incoming/outgoing/day-advance operations, the
progress record exists and its cached `currentBalance` equals the initial
budget minus the sum of all expense records plus the sum of all income
records other than the initial seed record. -/
theorem balance_conservation (budget : ℚ) (duration : ℤ) (ops : List InvOp) :
    (applyOps ops (startTask (initState budget duration)).2).progress.map
        (·.currentBalance) =
      some (budget -
        sumExpense
          (applyOps ops (startTask (initState budget duration)).2).financialRecords +
        sumIncomeNonInitial
          (applyOps ops (startTask (initState budget duration)).2).financialRecords) := by
  apply balanceConserved_applyOps
  unfold BalanceConserved startTask initState
  simp [sumExpense, sumIncomeNonInitial]

/-! ## Stock non-negativity -/

theorem mem_upsertInventoryRecord {l : List InventoryRecord}
    {r x : InventoryRecord} (hx : x ∈ upsertInventoryRecord l r) :
    x = r ∨ x ∈ l := by
  unfold upsertInventoryRecord at hx
  by_cases hc : l.any (fun y => y.productId == r.productId)
  · rw [if_pos hc] at hx
    simp only [List.mem_map] at hx
    obtain ⟨a, ha, hax⟩ := hx
    by_cases hpid : a.productId == r.productId
    · simp [hpid] at hax
      exact Or.inl hax.symm
    · simp [hpid] at hax
      exact Or.inr (hax ▸ ha)
  · rw [if_neg hc] at hx
    simp only [List.mem_append, List.mem_singleton] at hx
    exact hx.symm

/-- Well-formed operation per the service signatures: incoming quantities
are strictly positive. -/
def WfOp : InvOp → Prop
  | .incoming _ quantity _ => 0 < quantity
  | .outgoing _ _ _ => True
  | .advance => True

/-- Every inventory record holds a non-negative stock level. -/
def StocksNonneg (s : SimState) : Prop :=
  ∀ r ∈ s.inventory, 0 ≤ r.currentStock

theorem stocksNonneg_processIncoming (productId : Nat) (quantity : ℤ)
    (unitCost : ℚ) (s : SimState) (hq : 0 < quantity)
    (h : StocksNonneg s) :
    StocksNonneg (processIncoming productId quantity unitCost s).2 := by
  intro x hx
  have hx' : x ∈ upsertInventoryRecord s.inventory
      { productId := productId
        currentStock := match findInventory s.inventory productId with
          | some r => r.currentStock + quantity
          | none => quantity
        reservedStock :=
          (((findInventory s.inventory productId).map (·.reservedStock)).getD 0) } := by
    simp only [processIncoming] at hx
    cases hp : s.progress <;> simpa [hp] using hx
  rcases mem_upsertInventoryRecord hx' with hxr | hxl
  · subst hxr
    cases hf : findInventory s.inventory productId with
    | none => simpa [hf] using hq.le
    | some r =>
      have hr : r ∈ s.inventory := List.mem_of_find?_eq_some hf
      have := h r hr
      simp only [hf]
      omega
  · exact h x hxl

theorem stocksNonneg_processOutgoing (productId : Nat) (quantity : ℤ)
    (unitPrice : ℚ) (s : SimState) (h : StocksNonneg s) :
    StocksNonneg (processOutgoing productId quantity unitPrice s).2 := by
  intro x hx
  unfold processOutgoing at hx
  cases hf : findInventory s.inventory productId with
  | none =>
    simp only [hf] at hx
    exact h x hx
  | some r =>
    by_cases hq : r.currentStock < quantity
    · simp only [hf, hq, if_true] at hx
      exact h x hx
    · have hx' : x ∈ upsertInventoryRecord s.inventory
          { r with currentStock := r.currentStock - quantity } := by
        simp only [hf, hq, if_false] at hx
        cases hp : s.progress <;> simpa [hp] using hx
      rcases mem_upsertInventoryRecord hx' with hxr | hxl
      · subst hxr
        simp only
        omega
      · exact h x hxl

theorem stocksNonneg_advanceDay (s : SimState) (h : StocksNonneg s) :
    StocksNonneg (advanceDay s).2 := by
  intro x hx
  unfold advanceDay at hx
  cases hp : s.progress with
  | none => exact h x (by simpa [hp] using hx)
  | some p =>
    cases ht : s.task with
    | none => exact h x (by simpa [hp, ht] using hx)
    | some task =>
      by_cases hd : task.durationDays ≤ p.currentDay
      · exact h x (by simpa [hp, ht, hd] using hx)
      · exact h x (by simpa [hp, ht, hd] using hx)

/-- C2.  Stock non-negativity and atomic rejection: under any sequence of
well-formed operations every stock level stays non-negative, and an outgoing
call on a missing record or with quantity exceeding the current stock
returns InsufficientStock with the state (stock, ledger, progress) exactly
as it was. -/
theorem stock_nonneg_and_insufficient_rejected (ops : List InvOp)
    (s : SimState) (hwf : ∀ op ∈ ops, WfOp op) (hs : StocksNonneg s) :
    StocksNonneg (applyOps ops s) ∧
    (∀ (productId : Nat) (quantity : ℤ) (unitPrice : ℚ) (t : SimState),
      (∀ r, findInventory t.inventory productId = some r →
        r.currentStock < quantity) →
      processOutgoing productId quantity unitPrice t =
        (.error (.insufficientStock productId), t)) := by
  constructor
  · induction ops generalizing s with
    | nil => exact hs
    | cons op rest ih =>
      have hstep : StocksNonneg (applyOp op s) := by
        cases op with
        | incoming productId quantity unitCost =>
          exact stocksNonneg_processIncoming productId quantity unitCost s
            (hwf (InvOp.incoming productId quantity unitCost)
              (List.mem_cons_self _ _)) hs
        | outgoing productId quantity unitPrice =>
          exact stocksNonneg_processOutgoing productId quantity unitPrice s hs
        | advance => exact stocksNonneg_advanceDay s hs
      exact ih (applyOp op s)
        (fun op' hop' => hwf op' (List.mem_cons_of_mem _ hop')) hstep
  · intro productId quantity unitPrice t hshort
    unfold processOutgoing
    cases hf : findInventory t.inventory productId with
    | none => rfl
    | some r => simp [hshort r hf]

/-- C2 witness: a concrete well-formed trace (an incoming delivery followed
by an over-large outgoing request) keeps all stocks non-negative, and the
over-large outgoing request itself is rejected leaving the state intact. -/
theorem stock_nonneg_and_insufficient_rejected_witness :
    StocksNonneg (applyOps [.incoming 1 10 50, .outgoing 1 20 80]
      (initState 10000 5)) := by
  have h := stock_nonneg_and_insufficient_rejected
    [.incoming 1 10 50, .outgoing 1 20 80] (initState 10000 5)
    (by
      intro op hop
      simp only [List.mem_cons, List.not_mem_nil, or_false] at hop
      rcases hop with rfl | rfl
      · exact (by norm_num : (0 : ℤ) < 10)
      · trivial)
    (by intro r hr; simp [initState] at hr)
  exact h.1

/-! ## Task lifecycle -/

/-- C4.  `startTask` is idempotent: with the task present, calling it a
second time returns exactly the result of the first call and leaves the
state (in particular the financial ledger) unchanged — no re-seeding and no
duplicate initial record. -/
theorem startTask_idempotent (s : SimState) (t : TrainingTask)
    (ht : s.task = some t) :
    startTask (startTask s).2 = ((startTask s).1, (startTask s).2) := by
  cases hp : s.progress with
  | some p => simp [startTask, ht, hp]
  | none => simp [startTask, ht, hp]

/-- C4 witness: starting a fresh task twice returns the first call's
progress and state verbatim. -/
theorem startTask_idempotent_witness :
    startTask (startTask (initState 10000 5)).2 =
      ((startTask (initState 10000 5)).1, (startTask (initState 10000 5)).2) :=
  startTask_idempotent (initState 10000 5)
    { initialBudget := 10000, durationDays := 5 } rfl

theorem advanceDay_day_mono (s : SimState) (p : StudentProgress)
    (hp : s.progress = some p) :
    ∃ p', ((advanceDay s).2).progress = some p' ∧
      p.currentDay ≤ p'.currentDay := by
  cases ht : s.task with
  | none => exact ⟨p, by simp [advanceDay, hp, ht], le_refl _⟩
  | some t =>
    by_cases hd : t.durationDays ≤ p.currentDay
    · exact ⟨p, by simp [advanceDay, hp, ht, hd], le_refl _⟩
    · simp only [advanceDay, hp, ht, hd, if_false]
      refine ⟨_, rfl, ?_⟩
      simp

theorem advance_iter_day_mono (n : ℕ) (s : SimState) (p : StudentProgress)
    (hp : s.progress = some p) :
    ∃ p', (applyOps (List.replicate n .advance) s).progress = some p' ∧
      p.currentDay ≤ p'.currentDay := by
  induction n generalizing s p with
  | zero => exact ⟨p, hp, le_refl _⟩
  | succ k ih =>
    obtain ⟨q, hq, hle⟩ := advanceDay_day_mono s p hp
    obtain ⟨p', hp', hle'⟩ := ih (advanceDay s).2 q hq
    refine ⟨p', ?_, le_trans hle hle'⟩
    simpa [applyOps, List.replicate_succ, applyOp] using hp'

/-- C5.  The `advanceDay` contract: with progress and task present it fails
with AlreadyComplete (leaving the state untouched) once the current day has
reached the duration; otherwise it deducts exactly 1% of the balance,
appends a single expense record of that amount and bumps the day by one; and
across any number of calls the day never decreases. -/
theorem advanceDay_contract (s : SimState) (p : StudentProgress)
    (t : TrainingTask) (hp : s.progress = some p) (ht : s.task = some t) :
    (t.durationDays ≤ p.currentDay →
      advanceDay s = (.error .alreadyComplete, s)) ∧
    (p.currentDay < t.durationDays →
      ∃ p', advanceDay s =
          (.ok p',
            { s with
              financialRecords := s.financialRecords ++
                [{ recordType := .expense
                   amount := p.currentBalance * (1 / 100)
                   description := "第" ++ toString p.currentDay ++ "天运营成本"
                   category := "operational" }]
              progress := some p' }) ∧
        p'.currentDay = p.currentDay + 1 ∧
        p'.currentBalance = p.currentBalance - p.currentBalance * (1 / 100)) ∧
    (∀ (n : ℕ) (p' : StudentProgress),
      (applyOps (List.replicate n .advance) s).progress = some p' →
      p.currentDay ≤ p'.currentDay) := by
  refine ⟨fun hd => by simp [advanceDay, hp, ht, hd], fun hd => ?_, ?_⟩
  · have hd' : ¬ t.durationDays ≤ p.currentDay := not_le.mpr hd
    simp only [advanceDay, hp, ht, hd', if_false]
    exact ⟨_, rfl, rfl, rfl⟩
  · intro n p' h'
    obtain ⟨q, hq, hle⟩ := advance_iter_day_mono n s p hp
    rw [h'] at hq
    cases hq
    exact hle

/-- C5 witness: at a state whose current day equals the task duration,
`advanceDay` fails with AlreadyComplete and changes nothing. -/
theorem advanceDay_contract_witness :
    advanceDay
        { task := some { initialBudget := 10000, durationDays := 5 }
          progress := some
            { currentBalance := 9000, currentDay := 5, inventoryValue := 0
              totalRevenue := 0, totalProfit := 0
              kpiScores :=
                { financial := 0, operational := 0, decision := 0
                  learning := 0, total := 0 }
              status := .active }
          inventory := [], financialRecords := [], orders := []
          nextOrderId := 0 } =
      (.error .alreadyComplete,
        { task := some { initialBudget := 10000, durationDays := 5 }
          progress := some
            { currentBalance := 9000, currentDay := 5, inventoryValue := 0
              totalRevenue := 0, totalProfit := 0
              kpiScores :=
                { financial := 0, operational := 0, decision := 0
                  learning := 0, total := 0 }
              status := .active }
          inventory := [], financialRecords := [], orders := []
          nextOrderId := 0 }) :=
  (advanceDay_contract _ _ { initialBudget := 10000, durationDays := 5 }
    rfl rfl).1 (by norm_num)

/-! ## Order cancellation -/

theorem findOrder_updateOrderStatus (l : List Order) (orderId : Nat)
    (st : OrderStatus) :
    findOrder (updateOrderStatus l orderId st) orderId =
      (findOrder l orderId).map (fun o => { o with status := st }) := by
  induction l with
  | nil => rfl
  | cons o rest ih =>
    have hcons : updateOrderStatus (o :: rest) orderId st =
        (if o.id == orderId then { o with status := st } else o) ::
          updateOrderStatus rest orderId st := rfl
    rw [hcons]
    by_cases h : (o.id == orderId) = true
    · rw [if_pos h]
      unfold findOrder
      rw [List.find?_cons_of_pos (p := fun x => x.id == orderId)
          (a := { o with status := st }) (updateOrderStatus rest orderId st) h,
        List.find?_cons_of_pos (p := fun x => x.id == orderId) rest h]
      rfl
    · rw [if_neg h]
      unfold findOrder
      rw [List.find?_cons_of_neg (p := fun x => x.id == orderId)
          (updateOrderStatus rest orderId st) (by simpa using h),
        List.find?_cons_of_neg (p := fun x => x.id == orderId) rest
          (by simpa using h)]
      exact ih

theorem cancelOrder_not_completed (s : SimState) (orderId : Nat) (o : Order)
    (ho : findOrder s.orders orderId = some o)
    (hnc : o.status ≠ .completed) :
    cancelOrder orderId s =
      (.ok { o with status := .cancelled },
        { s with
          orders := updateOrderStatus s.orders orderId .cancelled
          financialRecords := s.financialRecords ++
            [{ recordType := .expense
               amount := 0
               description := "订单取消: " ++ o.orderNumber
               category := "operational"
               relatedOrderId := some orderId }] }) := by
  simp [cancelOrder, ho, hnc]

/-- C9.  `cancelOrder` rejects only completed orders; on any other status —
cancelled included — it succeeds again, re-setting the status to cancelled
and appending one more zero-amount expense record, so cancelling an
already-cancelled order twice leaves two extra audit records. -/
theorem cancelOrder_rejects_only_completed (s : SimState) (orderId : Nat)
    (o : Order) (ho : findOrder s.orders orderId = some o) :
    (o.status = .completed →
      cancelOrder orderId s = (.error .alreadyCompleted, s)) ∧
    (o.status ≠ .completed →
      cancelOrder orderId s =
        (.ok { o with status := .cancelled },
          { s with
            orders := updateOrderStatus s.orders orderId .cancelled
            financialRecords := s.financialRecords ++
              [{ recordType := .expense
                 amount := 0
                 description := "订单取消: " ++ o.orderNumber
                 category := "operational"
                 relatedOrderId := some orderId }] })) ∧
    (o.status = .cancelled →
      ((cancelOrder orderId (cancelOrder orderId s).2).2).financialRecords.length =
        s.financialRecords.length + 2) := by
  refine ⟨fun hc => by simp [cancelOrder, ho, hc],
    fun hc => cancelOrder_not_completed s orderId o ho hc, fun hc => ?_⟩
  have hnc : o.status ≠ OrderStatus.completed := by
    rw [hc]; intro h; cases h
  have h1 := cancelOrder_not_completed s orderId o ho hnc
  have ho2 : findOrder ((cancelOrder orderId s).2).orders orderId =
      some { o with status := .cancelled } := by
    rw [h1]
    show findOrder (updateOrderStatus s.orders orderId .cancelled) orderId = _
    rw [findOrder_updateOrderStatus, ho]
    rfl
  have h2 := cancelOrder_not_completed (cancelOrder orderId s).2 orderId
    { o with status := .cancelled } ho2 (fun h => by cases h)
  rw [h2]
  show (((cancelOrder orderId s).2).financialRecords ++ _).length = _
  rw [h1]
  simp

/-- C9 witness: a concrete already-cancelled order is cancelled twice more,
each call succeeding and appending one further zero-amount record. -/
theorem cancelOrder_rejects_only_completed_witness :
    ((cancelOrder 7 (cancelOrder 7
        { task := none, progress := none, inventory := []
          financialRecords := []
          orders := [{ id := 7, orderNumber := "SO-7", orderType := .sale
                       totalAmount := 60, status := .cancelled
                       orderItems := [] }]
          nextOrderId := 8 }).2).2).financialRecords.length = 0 + 2 :=
  (cancelOrder_rejects_only_completed
    { task := none, progress := none, inventory := []
      financialRecords := []
      orders := [{ id := 7, orderNumber := "SO-7", orderType := .sale
                   totalAmount := 60, status := .cancelled
                   orderItems := [] }]
      nextOrderId := 8 } 7
    { id := 7, orderNumber := "SO-7", orderType := .sale
      totalAmount := 60, status := .cancelled, orderItems := [] }
    rfl).2.2 rfl

/-! ## Inventory operations without a progress record -/

/-- C10.  When no progress record exists, incoming and outgoing inventory
operations still succeed: the inventory record is updated and the
income/expense ledger entry is appended, while the progress component of the
state — balance, revenue, profit, inventory value — is left exactly as it
was (absent). -/
theorem inventory_ops_skip_missing_progress (s : SimState) (productId : Nat)
    (quantity : ℤ) (price : ℚ) (hp : s.progress = none) :
    (∃ r, processIncoming productId quantity price s =
      (.ok r,
        { s with
          inventory := upsertInventoryRecord s.inventory r
          financialRecords := s.financialRecords ++
            [{ recordType := .expense
               amount := (quantity : ℚ) * price
               description := "采购入库 - 数量: " ++ toString quantity
               category := "procurement" }] })) ∧
    (∀ r₀, findInventory s.inventory productId = some r₀ →
      ¬ r₀.currentStock < quantity →
      processOutgoing productId quantity price s =
        (.ok { r₀ with currentStock := r₀.currentStock - quantity },
          { s with
            inventory := upsertInventoryRecord s.inventory
              { r₀ with currentStock := r₀.currentStock - quantity }
            financialRecords := s.financialRecords ++
              [{ recordType := .income
                 amount := (quantity : ℚ) * price
                 description := "销售出库 - 数量: " ++ toString quantity
                 category := "sales" }] })) := by
  constructor
  · simp only [processIncoming, hp]
    exact ⟨_, rfl⟩
  · intro r₀ hr hq
    simp only [processOutgoing, hr, hq, if_false, hp]

/-- C10 witness: with stock 5 of product 1 and no progress record, an
incoming delivery of 4 and an outgoing sale of 3 both succeed, append their
ledger entries, and leave the progress component absent. -/
theorem inventory_ops_skip_missing_progress_witness :
    (∃ r, processIncoming 1 4 25
        { task := none, progress := none
          inventory := [{ productId := 1, currentStock := 5
                          reservedStock := 0 }]
          financialRecords := [], orders := [], nextOrderId := 0 } =
      (.ok r,
        { task := none, progress := none
          inventory := upsertInventoryRecord
            [{ productId := 1, currentStock := 5, reservedStock := 0 }] r
          financialRecords := [] ++
            [{ recordType := .expense
               amount := (4 : ℚ) * 25
               description := "采购入库 - 数量: " ++ toString (4 : ℤ)
               category := "procurement" }]
          orders := [], nextOrderId := 0 })) ∧
    processOutgoing 1 3 80
        { task := none, progress := none
          inventory := [{ productId := 1, currentStock := 5
                          reservedStock := 0 }]
          financialRecords := [], orders := [], nextOrderId := 0 } =
      (.ok { productId := 1, currentStock := 5 - 3, reservedStock := 0 },
        { task := none, progress := none
          inventory := upsertInventoryRecord
            [{ productId := 1, currentStock := 5, reservedStock := 0 }]
            { productId := 1, currentStock := 5 - 3, reservedStock := 0 }
          financialRecords := [] ++
            [{ recordType := .income
               amount := (3 : ℚ) * 80
               description := "销售出库 - 数量: " ++ toString (3 : ℤ)
               category := "sales" }]
          orders := [], nextOrderId := 0 }) :=
  ⟨(inventory_ops_skip_missing_progress _ 1 4 25 rfl).1,
    (inventory_ops_skip_missing_progress _ 1 3 80 rfl).2
      { productId := 1, currentStock := 5, reservedStock := 0 } rfl
      (by norm_num)⟩

/-! ## Negotiation -/

/-- C8.  The negotiation decision rule: with
`discount = (basePrice − requestedPrice)/basePrice` and
`maxDiscount = 0.15 + min(quantity/100, 1)·0.10`, the offer is accepted at
the requested price whenever `discount ≤ maxDiscount` (which subsumes
`discount ≤ 0`), countered at `basePrice·(1 − maxDiscount)` when
`maxDiscount < discount ≤ maxDiscount + 0.05`, and rejected at `basePrice`
beyond that; in particular basePrice 100, quantity 150, requested 80 is
accepted at 80. -/
theorem negotiatePrice_decision (basePrice requestedPrice : ℚ)
    (quantity : ℤ) (hb : 0 < basePrice) (hq : 0 ≤ quantity) :
    ((basePrice - requestedPrice) / basePrice ≤
        15 / 100 + min ((quantity : ℚ) / 100) 1 * (10 / 100) →
      negotiatePrice basePrice requestedPrice quantity =
        { accepted := true, finalPrice := requestedPrice }) ∧
    (15 / 100 + min ((quantity : ℚ) / 100) 1 * (10 / 100) <
        (basePrice - requestedPrice) / basePrice →
      (basePrice - requestedPrice) / basePrice ≤
        15 / 100 + min ((quantity : ℚ) / 100) 1 * (10 / 100) + 5 / 100 →
      negotiatePrice basePrice requestedPrice quantity =
        { accepted := false
          finalPrice := basePrice *
            (1 - (15 / 100 + min ((quantity : ℚ) / 100) 1 * (10 / 100))) }) ∧
    (15 / 100 + min ((quantity : ℚ) / 100) 1 * (10 / 100) + 5 / 100 <
        (basePrice - requestedPrice) / basePrice →
      negotiatePrice basePrice requestedPrice quantity =
        { accepted := false, finalPrice := basePrice }) ∧
    negotiatePrice 100 80 150 = { accepted := true, finalPrice := 80 } := by
  have hqf : (0 : ℚ) ≤ min ((quantity : ℚ) / 100) 1 :=
    le_min (by positivity) (by norm_num)
  refine ⟨fun h => ?_, fun h1 h2 => ?_, fun h => ?_,
    by norm_num [negotiatePrice, min_def]⟩
  · by_cases h0 : (basePrice - requestedPrice) / basePrice ≤ 0
    · simp [negotiatePrice, h0]
    · simp [negotiatePrice, h0, h]
  · have h0 : ¬ (basePrice - requestedPrice) / basePrice ≤ 0 := by linarith
    have hm : ¬ (basePrice - requestedPrice) / basePrice ≤
        15 / 100 + min ((quantity : ℚ) / 100) 1 * (10 / 100) := not_le.mpr h1
    simp [negotiatePrice, h0, hm, h2]
  · have h0 : ¬ (basePrice - requestedPrice) / basePrice ≤ 0 := by linarith
    have hm : ¬ (basePrice - requestedPrice) / basePrice ≤
        15 / 100 + min ((quantity : ℚ) / 100) 1 * (10 / 100) := by
      refine not_le.mpr ?_
      linarith
    have hc : ¬ (basePrice - requestedPrice) / basePrice ≤
        15 / 100 + min ((quantity : ℚ) / 100) 1 * (10 / 100) + 5 / 100 :=
      not_le.mpr h
    simp [negotiatePrice, h0, hm, hc]

/-- C8 witness: the concrete scenario basePrice 100, quantity 150,
requestedPrice 80 falls in the acceptance band and is accepted at 80. -/
theorem negotiatePrice_decision_witness :
    negotiatePrice 100 80 150 = { accepted := true, finalPrice := 80 } :=
  (negotiatePrice_decision 100 80 150 (by norm_num) (by norm_num)).1
    (by norm_num [min_def])

/-! ## KPI scoring -/

/-- `calculateKPIs` written through the named raw axis scores: each stored
axis is the rounding of its raw score, and the stored total is the rounding
of the weighted sum of the *raw* (unrounded) scores. -/
theorem calculateKPIs_decomposed (s : SimState) (p : StudentProgress) :
    calculateKPIs s p =
      { financial := jround (financialScoreRaw s)
        operational := jround (operationalScoreRaw s)
        decision := jround (decisionScoreRaw s)
        learning := jround (learningScoreRaw s p)
        total := jround (financialScoreRaw s * (4 / 10) +
          operationalScoreRaw s * (3 / 10) + decisionScoreRaw s * (2 / 10) +
          learningScoreRaw s p * (1 / 10)) } := rfl

/-- State used to separate the two total-rounding conventions: one income of
10000 and one expense of 7435 give a raw financial score of 51.3. -/
def kpiTotalState : SimState :=
  { task := some { initialBudget := 10000, durationDays := 100 }
    progress := none
    inventory := []
    financialRecords :=
      [{ recordType := .income, amount := 10000, description := ""
         category := "x" },
       { recordType := .expense, amount := 7435, description := ""
         category := "y" }]
    orders := [], nextOrderId := 0 }

/-- Progress record on day 10 of the 100-day task of `kpiTotalState`. -/
def kpiTotalProgress : StudentProgress :=
  { currentBalance := 0, currentDay := 10, inventoryValue := 0
    totalRevenue := 0, totalProfit := 0
    kpiScores :=
      { financial := 0, operational := 0, decision := 0, learning := 0
        total := 0 }
    status := .active }

/-- C6 counterexample: at `kpiTotalState` the stored axis scores are
financial 51, operational 0, decision 0, learning 10, and the stored total
is 22 — but the rounding of the weighted sum of those *stored* scores is
21, so the stored total is not computed from the rounded axis scores. -/
theorem kpi_total_not_from_stored_scores :
    calculateKPIs kpiTotalState kpiTotalProgress =
      { financial := 51, operational := 0, decision := 0, learning := 10
        total := 22 } ∧
    jround ((51 : ℚ) * (4 / 10) + (0 : ℚ) * (3 / 10) + (0 : ℚ) * (2 / 10) +
      (10 : ℚ) * (1 / 10)) = 21 ∧
    (22 : ℤ) ≠ 21 := by
  refine ⟨?_, by norm_num [jround], by norm_num⟩
  simp +decide [calculateKPIs, calculateInventoryTurnover, kpiTotalState,
    kpiTotalProgress]
  norm_num [jround, min_def, max_def]

/-- C6 (amended).  Each of the four axis scores is rounded to the nearest
integer before storage, and the stored total equals
round(0.4·financial + 0.3·operational + 0.2·decision + 0.1·learning)
computed from the *unrounded* axis scores — not from the stored rounded
ones, from which it can differ by one. -/
theorem kpi_axis_rounded_total_from_raw (s : SimState)
    (p : StudentProgress) :
    (calculateKPIs s p).financial = jround (financialScoreRaw s) ∧
    (calculateKPIs s p).operational = jround (operationalScoreRaw s) ∧
    (calculateKPIs s p).decision = jround (decisionScoreRaw s) ∧
    (calculateKPIs s p).learning = jround (learningScoreRaw s p) ∧
    (calculateKPIs s p).total = jround (financialScoreRaw s * (4 / 10) +
      operationalScoreRaw s * (3 / 10) + decisionScoreRaw s * (2 / 10) +
      learningScoreRaw s p * (1 / 10)) :=
  ⟨rfl, rfl, rfl, rfl, rfl⟩

theorem jround_bounds {q : ℚ} (h0 : 0 ≤ q) (h1 : q ≤ 100) :
    0 ≤ jround q ∧ jround q ≤ 100 := by
  constructor
  · exact Int.le_floor.mpr (by push_cast; linarith)
  · have hlt : jround q < 101 := by
      rw [jround, Int.floor_lt]
      push_cast
      linarith
    omega

theorem financialScoreRaw_bounds (s : SimState) :
    0 ≤ financialScoreRaw s ∧ financialScoreRaw s ≤ 100 := by
  unfold financialScoreRaw
  exact ⟨le_min (by norm_num) (le_max_left 0 _), min_le_left _ _⟩

theorem operationalScoreRaw_bounds (s : SimState) :
    0 ≤ operationalScoreRaw s ∧ operationalScoreRaw s ≤ 100 := by
  unfold operationalScoreRaw
  refine ⟨le_min (by norm_num) ?_, min_le_left _ _⟩
  split
  · apply mul_nonneg _ (by norm_num)
    apply div_nonneg
    · exact_mod_cast Int.natCast_nonneg _
    · exact_mod_cast Int.natCast_nonneg _
  · exact le_refl 0

theorem calculateInventoryTurnover_nonneg (s : SimState)
    (hq : ∀ o ∈ s.orders, ∀ item ∈ o.orderItems, 0 ≤ item.quantity) :
    0 ≤ calculateInventoryTurnover s := by
  simp only [calculateInventoryTurnover]
  split
  · next h =>
    apply div_nonneg _ h.le
    have hts : (0 : ℤ) ≤ ((s.orders.filter
        (fun o => o.orderType == .sale && o.status == .completed)).map
          (fun o => (o.orderItems.map (·.quantity)).sum)).sum := by
      apply List.sum_nonneg
      intro x hx
      simp only [List.mem_map] at hx
      obtain ⟨o, ho, rfl⟩ := hx
      apply List.sum_nonneg
      intro q hqx
      simp only [List.mem_map] at hqx
      obtain ⟨item, hitem, rfl⟩ := hqx
      exact hq o (List.mem_of_mem_filter ho) item hitem
    exact_mod_cast hts
  · exact le_refl 0

theorem decisionScoreRaw_bounds (s : SimState)
    (hq : ∀ o ∈ s.orders, ∀ item ∈ o.orderItems, 0 ≤ item.quantity) :
    0 ≤ decisionScoreRaw s ∧ decisionScoreRaw s ≤ 100 := by
  unfold decisionScoreRaw
  refine ⟨le_min (by norm_num) ?_, min_le_left _ _⟩
  exact mul_nonneg (calculateInventoryTurnover_nonneg s hq) (by norm_num)

theorem learningScoreRaw_bounds (s : SimState) (p : StudentProgress)
    (hd : 0 ≤ p.currentDay)
    (ht : ∀ t, s.task = some t → 0 < t.durationDays) :
    0 ≤ learningScoreRaw s p ∧ learningScoreRaw s p ≤ 100 := by
  unfold learningScoreRaw
  refine ⟨le_min (by norm_num) ?_, min_le_left _ _⟩
  cases hts : s.task with
  | none => simp
  | some t =>
    have hdur := ht t hts
    simp only [hts]
    apply mul_nonneg _ (by norm_num)
    apply div_nonneg
    · exact_mod_cast hd
    · exact_mod_cast hdur.le

/-- C7.  KPI bounds: for any state whose order items carry non-negative
quantities, whose progress day is non-negative and whose task (when present)
has a positive duration — covering zero orders, zero income, zero inventory
and arbitrarily negative profit margins — each stored axis score and the
stored total lie in [0, 100]. -/
theorem kpi_scores_bounded (s : SimState) (p : StudentProgress)
    (hq : ∀ o ∈ s.orders, ∀ item ∈ o.orderItems, 0 ≤ item.quantity)
    (hd : 0 ≤ p.currentDay)
    (ht : ∀ t, s.task = some t → 0 < t.durationDays) :
    (0 ≤ (calculateKPIs s p).financial ∧ (calculateKPIs s p).financial ≤ 100) ∧
    (0 ≤ (calculateKPIs s p).operational ∧
      (calculateKPIs s p).operational ≤ 100) ∧
    (0 ≤ (calculateKPIs s p).decision ∧ (calculateKPIs s p).decision ≤ 100) ∧
    (0 ≤ (calculateKPIs s p).learning ∧ (calculateKPIs s p).learning ≤ 100) ∧
    (0 ≤ (calculateKPIs s p).total ∧ (calculateKPIs s p).total ≤ 100) := by
  obtain ⟨f0, f1⟩ := financialScoreRaw_bounds s
  obtain ⟨o0, o1⟩ := operationalScoreRaw_bounds s
  obtain ⟨d0, d1⟩ := decisionScoreRaw_bounds s hq
  obtain ⟨l0, l1⟩ := learningScoreRaw_bounds s p hd ht
  rw [calculateKPIs_decomposed]
  refine ⟨jround_bounds f0 f1, jround_bounds o0 o1, jround_bounds d0 d1,
    jround_bounds l0 l1, jround_bounds ?_ ?_⟩
  · nlinarith
  · nlinarith

/-- C7 witness: at a fresh state with no records, no orders and no inventory
(and so zero income and zero turnover), every stored score and the total lie
in [0, 100]. -/
theorem kpi_scores_bounded_witness :
    (0 ≤ (calculateKPIs (initState 10000 5)
        { currentBalance := 10000, currentDay := 1, inventoryValue := 0
          totalRevenue := 0, totalProfit := 0
          kpiScores :=
            { financial := 0, operational := 0, decision := 0, learning := 0
              total := 0 }
          status := .active }).financial ∧
      (calculateKPIs (initState 10000 5)
        { currentBalance := 10000, currentDay := 1, inventoryValue := 0
          totalRevenue := 0, totalProfit := 0
          kpiScores :=
            { financial := 0, operational := 0, decision := 0, learning := 0
              total := 0 }
          status := .active }).financial ≤ 100) ∧
    (0 ≤ (calculateKPIs (initState 10000 5)
        { currentBalance := 10000, currentDay := 1, inventoryValue := 0
          totalRevenue := 0, totalProfit := 0
          kpiScores :=
            { financial := 0, operational := 0, decision := 0, learning := 0
              total := 0 }
          status := .active }).operational ∧
      (calculateKPIs (initState 10000 5)
        { currentBalance := 10000, currentDay := 1, inventoryValue := 0
          totalRevenue := 0, totalProfit := 0
          kpiScores :=
            { financial := 0, operational := 0, decision := 0, learning := 0
              total := 0 }
          status := .active }).operational ≤ 100) ∧
    (0 ≤ (calculateKPIs (initState 10000 5)
        { currentBalance := 10000, currentDay := 1, inventoryValue := 0
          totalRevenue := 0, totalProfit := 0
          kpiScores :=
            { financial := 0, operational := 0, decision := 0, learning := 0
              total := 0 }
          status := .active }).decision ∧
      (calculateKPIs (initState 10000 5)
        { currentBalance := 10000, currentDay := 1, inventoryValue := 0
          totalRevenue := 0, totalProfit := 0
          kpiScores :=
            { financial := 0, operational := 0, decision := 0, learning := 0
              total := 0 }
          status := .active }).decision ≤ 100) ∧
    (0 ≤ (calculateKPIs (initState 10000 5)
        { currentBalance := 10000, currentDay := 1, inventoryValue := 0
          totalRevenue := 0, totalProfit := 0
          kpiScores :=
            { financial := 0, operational := 0, decision := 0, learning := 0
              total := 0 }
          status := .active }).learning ∧
      (calculateKPIs (initState 10000 5)
        { currentBalance := 10000, currentDay := 1, inventoryValue := 0
          totalRevenue := 0, totalProfit := 0
          kpiScores :=
            { financial := 0, operational := 0, decision := 0, learning := 0
              total := 0 }
          status := .active }).learning ≤ 100) ∧
    (0 ≤ (calculateKPIs (initState 10000 5)
        { currentBalance := 10000, currentDay := 1, inventoryValue := 0
          totalRevenue := 0, totalProfit := 0
          kpiScores :=
            { financial := 0, operational := 0, decision := 0, learning := 0
              total := 0 }
          status := .active }).total ∧
      (calculateKPIs (initState 10000 5)
        { currentBalance := 10000, currentDay := 1, inventoryValue := 0
          totalRevenue := 0, totalProfit := 0
          kpiScores :=
            { financial := 0, operational := 0, decision := 0, learning := 0
              total := 0 }
          status := .active }).total ≤ 100) :=
  kpi_scores_bounded (initState 10000 5)
    { currentBalance := 10000, currentDay := 1, inventoryValue := 0
      totalRevenue := 0, totalProfit := 0
      kpiScores :=
        { financial := 0, operational := 0, decision := 0, learning := 0
          total := 0 }
      status := .active }
    (by intro o ho; cases ho)
    (by norm_num)
    (by
      intro t h
      simp only [initState, Option.some.injEq] at h
      subst h
      norm_num)

/-! ## Sales-order processing -/

theorem findInventory_upsert_ne (l : List InventoryRecord)
    (r : InventoryRecord) (pid : Nat) (h : r.productId ≠ pid) :
    findInventory (upsertInventoryRecord l r) pid = findInventory l pid := by
  unfold upsertInventoryRecord
  by_cases hc : l.any (fun x => x.productId == r.productId)
  · rw [if_pos hc]
    clear hc
    induction l with
    | nil => rfl
    | cons x rest ih =>
      rw [List.map_cons]
      by_cases hx : (x.productId == r.productId) = true
      · have hxpid : x.productId ≠ pid := by
          rw [beq_iff_eq] at hx
          rw [hx]; exact h
        unfold findInventory
        rw [if_pos hx]
        rw [List.find?_cons_of_neg (p := fun y : InventoryRecord => y.productId == pid) _
            (by simp [h]),
          List.find?_cons_of_neg (p := fun y : InventoryRecord => y.productId == pid) _
            (by simp [hxpid])]
        exact ih
      · unfold findInventory
        rw [if_neg hx]
        by_cases hxp : (x.productId == pid) = true
        · rw [List.find?_cons_of_pos (p := fun y : InventoryRecord => y.productId == pid) _ hxp,
            List.find?_cons_of_pos (p := fun y : InventoryRecord => y.productId == pid) _ hxp]
        · rw [List.find?_cons_of_neg (p := fun y : InventoryRecord => y.productId == pid) _
              (by simpa using hxp),
            List.find?_cons_of_neg (p := fun y : InventoryRecord => y.productId == pid) _
              (by simpa using hxp)]
          exact ih
  · rw [if_neg hc]
    clear hc
    unfold findInventory
    induction l with
    | nil =>
      rw [List.nil_append]
      rw [List.find?_cons_of_neg (p := fun y : InventoryRecord => y.productId == pid) _
          (by simp [h])]
    | cons x rest ih =>
      rw [List.cons_append]
      by_cases hxp : (x.productId == pid) = true
      · rw [List.find?_cons_of_pos (p := fun y : InventoryRecord => y.productId == pid) _ hxp,
          List.find?_cons_of_pos (p := fun y : InventoryRecord => y.productId == pid) _ hxp]
      · rw [List.find?_cons_of_neg (p := fun y : InventoryRecord => y.productId == pid) _
            (by simpa using hxp),
          List.find?_cons_of_neg (p := fun y : InventoryRecord => y.productId == pid) _
            (by simpa using hxp)]
        exact ih

theorem processOutgoing_ok_frame (productId : Nat) (quantity : ℤ)
    (price : ℚ) (s : SimState) (r : InventoryRecord)
    (hr : findInventory s.inventory productId = some r)
    (hq : quantity ≤ r.currentStock) :
    (processOutgoing productId quantity price s).1 =
      .ok { r with currentStock := r.currentStock - quantity } ∧
    (∀ pid', pid' ≠ productId →
      findInventory ((processOutgoing productId quantity price s).2).inventory
          pid' =
        findInventory s.inventory pid') := by
  have hq' : ¬ r.currentStock < quantity := not_lt.mpr hq
  have hrid : r.productId = productId := by
    have := List.find?_some hr
    simpa using this
  constructor
  · simp [processOutgoing, hr, hq']
  · intro pid' hne
    have hinv :
        ((processOutgoing productId quantity price s).2).inventory =
          upsertInventoryRecord s.inventory
            { r with currentStock := r.currentStock - quantity } := by
      cases hp : s.progress <;> simp [processOutgoing, hr, hq', hp]
    rw [hinv]
    exact findInventory_upsert_ne s.inventory _ pid' (by simpa [hrid] using hne.symm)

theorem processItemsOutgoing_ok (items : List OrderItem) (s : SimState)
    (hdist : items.Pairwise (fun a b => a.productId ≠ b.productId))
    (havail : ∀ item ∈ items,
      ∃ r, findInventory s.inventory item.productId = some r ∧
        item.quantity ≤ r.currentStock) :
    (processItemsOutgoing items s).1 = .ok () := by
  induction items generalizing s with
  | nil => rfl
  | cons item rest ih =>
    obtain ⟨r, hr, hq⟩ := havail item (List.mem_cons_self _ _)
    obtain ⟨hok, hframe⟩ :=
      processOutgoing_ok_frame item.productId item.quantity item.unitPrice
        s r hr hq
    have hstep : processItemsOutgoing (item :: rest) s =
        (match processOutgoing item.productId item.quantity item.unitPrice s
            with
          | (.error e, s1) => (.error e, s1)
          | (.ok _, s1) => processItemsOutgoing rest s1) := rfl
    rw [hstep]
    rcases hps : processOutgoing item.productId item.quantity item.unitPrice s
      with ⟨e, s'⟩
    rw [hps] at hok
    simp at hok
    subst hok
    show (processItemsOutgoing rest s').1 = .ok ()
    apply ih s' (List.Pairwise.of_cons hdist)
    intro item' hitem'
    obtain ⟨r', hr', hq'⟩ := havail item' (List.mem_cons_of_mem _ hitem')
    refine ⟨r', ?_, hq'⟩
    have hne : item'.productId ≠ item.productId :=
      Ne.symm ((List.pairwise_cons.mp hdist).1 item' hitem')
    have hfr := hframe item'.productId hne
    rw [hps] at hfr
    rw [hfr]
    exact hr'

theorem findOrder_append_fresh (l : List Order) (o : Order)
    (hfresh : ∀ x ∈ l, x.id ≠ o.id) :
    findOrder (l ++ [o]) o.id = some o := by
  induction l with
  | nil =>
    unfold findOrder
    rw [List.nil_append,
      List.find?_cons_of_pos (p := fun y : Order => y.id == o.id) _ (by simp)]
  | cons x rest ih =>
    unfold findOrder
    rw [List.cons_append,
      List.find?_cons_of_neg (p := fun y : Order => y.id == o.id) _
        (by simp [hfresh x (List.mem_cons_self _ _)])]
    exact ih (fun y hy => hfresh y (List.mem_cons_of_mem _ hy))

theorem processSalesOrder_ok (orderId : Nat) (s : SimState) (o : Order)
    (ho : findOrder s.orders orderId = some o) (hst : o.status = .pending)
    (hloop : (processItemsOutgoing o.orderItems s).1 = .ok ()) :
    (processSalesOrder orderId s).1 = .ok { o with status := .completed } := by
  have hne : ¬ o.status ≠ OrderStatus.pending := by simp [hst]
  simp only [processSalesOrder, ho, if_neg hne]
  rcases hps : processItemsOutgoing o.orderItems s with ⟨e, s'⟩
  rw [hps] at hloop
  simp at hloop
  subst hloop
  rfl

/-- A state holding stock 5 of product 1, an active progress record and an
empty ledger, used to exercise a sales order that lists the same product
twice. -/
def dupSaleState : SimState :=
  { task := some { initialBudget := 10000, durationDays := 5 }
    progress := some
      { currentBalance := 10000, currentDay := 1, inventoryValue := 0
        totalRevenue := 0, totalProfit := 0
        kpiScores :=
          { financial := 0, operational := 0, decision := 0, learning := 0
            total := 0 }
        status := .active }
    inventory := [{ productId := 1, currentStock := 5, reservedStock := 0 }]
    financialRecords := [], orders := [], nextOrderId := 0 }

/-- C3 counterexample: with stock 5 of product 1, a sales order listing
product 1 twice with quantity 3 each passes the per-item pre-check (each
item alone fits the snapshot), then fails with InsufficientStock on the
second item mid-loop — yet the first item's movement survives: the stock has
dropped from 5 to 2 and one sales income record was appended, so the
operation is neither fully applied nor free of mutation. -/
theorem createSalesOrder_mid_loop_mutation :
    dupSaleState.inventory =
      [{ productId := 1, currentStock := 5, reservedStock := 0 }] ∧
    dupSaleState.financialRecords.length = 0 ∧
    (createSalesOrder
      [{ productId := 1, quantity := 3, unitPrice := 10 },
       { productId := 1, quantity := 3, unitPrice := 10 }] dupSaleState).1 =
        .error (.insufficientStock 1) ∧
    (createSalesOrder
      [{ productId := 1, quantity := 3, unitPrice := 10 },
       { productId := 1, quantity := 3, unitPrice := 10 }]
        dupSaleState).2.inventory =
      [{ productId := 1, currentStock := 2, reservedStock := 0 }] ∧
    (createSalesOrder
      [{ productId := 1, quantity := 3, unitPrice := 10 },
       { productId := 1, quantity := 3, unitPrice := 10 }]
        dupSaleState).2.financialRecords.length = 1 := by
  refine ⟨rfl, rfl, ?_, ?_, ?_⟩ <;>
    simp +decide [createSalesOrder, processSalesOrder, processItemsOutgoing,
      processOutgoing, itemShort, findInventory, findOrder,
      upsertInventoryRecord, updateOrderStatus, dupSaleState]

/-- C3 (amended).  `createSalesOrder` checks every item against the
inventory snapshot before any mutation, and a pre-check failure (any single
item exceeding the snapshot stock, or a missing record) rejects with
InsufficientStock and no mutation at all; when additionally the items list
names pairwise-distinct products, the pre-check guarantees the whole order
processes successfully, so all of the items' movements are applied.  (When
the same product appears in several items the pre-check can pass and the
per-item loop can still fail midway, leaving the earlier items applied — see
the counterexample.) -/
theorem createSalesOrder_amended (items : List OrderItem) (s : SimState) :
    (∀ item, items.find? (itemShort s) = some item →
      createSalesOrder items s =
        (.error (.insufficientStock item.productId), s)) ∧
    ((∀ o ∈ s.orders, o.id ≠ s.nextOrderId) →
      items.Pairwise (fun a b => a.productId ≠ b.productId) →
      (∀ item ∈ items,
        ∃ r, findInventory s.inventory item.productId = some r ∧
          item.quantity ≤ r.currentStock) →
      ∃ o, (createSalesOrder items s).1 = .ok o) := by
  constructor
  · intro item hfind
    simp [createSalesOrder, hfind]
  · intro hfresh hdist havail
    have hnone : items.find? (itemShort s) = none := by
      rw [List.find?_eq_none]
      intro item hitem
      obtain ⟨r, hr, hq⟩ := havail item hitem
      simp only [itemShort, hr, decide_eq_true_eq]
      exact not_lt.mpr hq
    have hfound : findOrder
        (s.orders ++
          [{ id := s.nextOrderId
             orderNumber := "SO-" ++ toString s.nextOrderId
             orderType := .sale
             totalAmount :=
               (items.map
                 (fun item => (item.quantity : ℚ) * item.unitPrice)).sum
             status := .pending
             orderItems := items }]) s.nextOrderId =
        some { id := s.nextOrderId
               orderNumber := "SO-" ++ toString s.nextOrderId
               orderType := .sale
               totalAmount :=
                 (items.map
                   (fun item => (item.quantity : ℚ) * item.unitPrice)).sum
               status := .pending
               orderItems := items } :=
      findOrder_append_fresh s.orders _ hfresh
    have hloop : (processItemsOutgoing items
        { s with
          orders := s.orders ++
            [{ id := s.nextOrderId
               orderNumber := "SO-" ++ toString s.nextOrderId
               orderType := .sale
               totalAmount :=
                 (items.map
                   (fun item => (item.quantity : ℚ) * item.unitPrice)).sum
               status := .pending
               orderItems := items }]
          nextOrderId := s.nextOrderId + 1 }).1 = .ok () :=
      processItemsOutgoing_ok items _ hdist (fun item hi => havail item hi)
    have hps := processSalesOrder_ok s.nextOrderId
      { s with
        orders := s.orders ++
          [{ id := s.nextOrderId
             orderNumber := "SO-" ++ toString s.nextOrderId
             orderType := .sale
             totalAmount :=
               (items.map
                 (fun item => (item.quantity : ℚ) * item.unitPrice)).sum
             status := .pending
             orderItems := items }]
        nextOrderId := s.nextOrderId + 1 }
      { id := s.nextOrderId
        orderNumber := "SO-" ++ toString s.nextOrderId
        orderType := .sale
        totalAmount :=
          (items.map (fun item => (item.quantity : ℚ) * item.unitPrice)).sum
        status := .pending
        orderItems := items }
      hfound rfl hloop
    simp only [createSalesOrder, hnone]
    rcases hres : processSalesOrder s.nextOrderId
      { s with
        orders := s.orders ++
          [{ id := s.nextOrderId
             orderNumber := "SO-" ++ toString s.nextOrderId
             orderType := .sale
             totalAmount :=
               (items.map
                 (fun item => (item.quantity : ℚ) * item.unitPrice)).sum
             status := .pending
             orderItems := items }]
        nextOrderId := s.nextOrderId + 1 } with ⟨e, s2⟩
    rw [hres] at hps
    simp at hps
    subst hps
    exact ⟨_, rfl⟩

/-- C3 witness: with stock 5 of product 1, a single-item order for 9 units
is rejected by the pre-check with the state unchanged, while a single-item
order for 3 units (distinct products trivially) processes successfully. -/
theorem createSalesOrder_amended_witness :
    createSalesOrder [{ productId := 1, quantity := 9, unitPrice := 10 }]
        dupSaleState =
      (.error (.insufficientStock 1), dupSaleState) ∧
    ∃ o, (createSalesOrder
        [{ productId := 1, quantity := 3, unitPrice := 10 }]
          dupSaleState).1 = .ok o :=
  ⟨(createSalesOrder_amended
      [{ productId := 1, quantity := 9, unitPrice := 10 }] dupSaleState).1
      { productId := 1, quantity := 9, unitPrice := 10 } rfl,
   (createSalesOrder_amended
      [{ productId := 1, quantity := 3, unitPrice := 10 }] dupSaleState).2
      (fun o ho => absurd ho (List.not_mem_nil o))
      (List.pairwise_singleton _ _)
      (by
        intro item hitem
        simp only [List.mem_singleton] at hitem
        subst hitem
        exact ⟨{ productId := 1, currentStock := 5, reservedStock := 0 },
          rfl, by norm_num⟩)⟩

end SCM
